import Mathlib

/-!
Verification of the Gardner MiniChess engine and its search agents.

The definitions below are a shallow embedding of `src/minichess/game.py`,
`src/minichess/agents/minimax_agent.py` and `src/minichess/agents/mcts_agent.py`:

* piece codes (one-character strings with case giving the color) become a
  `Piece` structure of a `Color` and a `Kind`;
* the 5×5 board (a tuple of tuples of optional piece codes) becomes a
  `List (List (Option Piece))`, read with `bGet` and written with `setCell`;
* Python ints become `Int`/`Nat`, floats that only ever hold exact small
  ratios become `Rat`;
* functions that raise become `Option`-valued;
* the pseudo random source and the wall clock are modelled by explicit
  oracle parameters where they are needed (and the claims below are all
  about runs with `time_limit=None`, where `_timed_out` is identically
  `False` without reading the clock).
-/

namespace MiniChess

inductive Color where
  | W
  | B
deriving DecidableEq, Repr

/-- The opponent of a color (`"B" if color == "W" else "W"`). -/
def Color.other : Color → Color
  | .W => .B
  | .B => .W

inductive Kind where
  | P
  | N
  | B
  | R
  | Q
  | K
deriving DecidableEq, Repr

/-- A piece code: the Python one-character string, split into case (color)
and letter (kind). -/
structure Piece where
  color : Color
  kind : Kind
deriving DecidableEq, Repr

/-- `Board`: 5×5 grid of piece codes or `none` (row-major list of rows; the
source type alias `Board = Tuple[Tuple[Optional[str], ...], ...]`). -/
abbrev Board := List (List (Option Piece))

def BOARD_SIZE : Int := 5

/-- `_in_bounds`. -/
def inBounds (r c : Int) : Bool :=
  0 ≤ r && r < BOARD_SIZE && 0 ≤ c && c < BOARD_SIZE

/-- `board[r][c]` (all source reads are guarded by `_in_bounds`; out of
bounds we return `none`). -/
def bGet (b : Board) (r c : Int) : Option Piece :=
  if inBounds r c then ((b : List (List (Option Piece))).getD r.toNat []).getD c.toNat none
  else none

/-- Write one cell of the board (the source copies the grid and assigns). -/
def setCell (b : Board) (r c : Int) (v : Option Piece) : Board :=
  if inBounds r c then
    (b : List (List (Option Piece))).set r.toNat
      (((b : List (List (Option Piece))).getD r.toNat []).set c.toNat v)
  else b

/-- A discrete move `(from_row, from_col) -> (to_row, to_col)` with optional
promotion piece. -/
structure Move where
  fromSq : Int × Int
  toSq : Int × Int
  promotion : Option Piece := none
deriving DecidableEq, Repr

/-- `_piece_color` (case of the piece code). -/
def pieceColor (p : Piece) : Color := p.color

/-- `_apply_move`: clear the source square, put the moved piece (or the
promotion piece when given) on the destination square. -/
def applyMove (b : Board) (m : Move) : Board :=
  let piece := bGet b m.fromSq.1 m.fromSq.2
  let b1 := setCell b m.fromSq.1 m.fromSq.2 none
  let destPiece : Option Piece :=
    match m.promotion with
    | some q => some q
    | none => piece
  setCell b1 m.toSq.1 m.toSq.2 destPiece

/-- `_pawn_moves`. -/
def pawnMoves (b : Board) (r c : Int) (color : Color) : List Move :=
  let direction : Int := if color = Color.W then 1 else -1
  let promotionRank : Int := if color = Color.W then BOARD_SIZE - 1 else 0
  let promoPiece : Piece := ⟨color, Kind.Q⟩
  let forward : List Move :=
    if inBounds (r + direction) c && (bGet b (r + direction) c).isNone then
      if r + direction = promotionRank then
        [{ fromSq := (r, c), toSq := (r + direction, c), promotion := some promoPiece }]
      else
        [{ fromSq := (r, c), toSq := (r + direction, c) }]
    else []
  let captures : List Move :=
    ([-1, 1] : List Int).foldr (fun dc acc =>
      (if inBounds (r + direction) (c + dc) then
        match bGet b (r + direction) (c + dc) with
        | none => []
        | some tp =>
          if pieceColor tp = color then []
          else if r + direction = promotionRank then
            [{ fromSq := (r, c), toSq := (r + direction, c + dc), promotion := some promoPiece }]
          else
            [{ fromSq := (r, c), toSq := (r + direction, c + dc) }]
      else []) ++ acc) []
  forward ++ captures

/-- The eight knight offsets, in source order. -/
def knightDeltas : List (Int × Int) :=
  [(2, 1), (2, -1), (-2, 1), (-2, -1), (1, 2), (1, -2), (-1, 2), (-1, -2)]

/-- `_knight_moves`. -/
def knightMoves (b : Board) (r c : Int) (color : Color) : List Move :=
  knightDeltas.foldr (fun d acc =>
    (let nr := r + d.1
     let nc := c + d.2
     if inBounds nr nc then
       match bGet b nr nc with
       | none => [{ fromSq := (r, c), toSq := (nr, nc) : Move }]
       | some t => if pieceColor t ≠ color then [{ fromSq := (r, c), toSq := (nr, nc) : Move }] else []
     else []) ++ acc) []

/-- One sliding ray of `_slider_moves` (the source `while` loop; the board
has 5 columns, so 5 steps of fuel exhaust every ray). -/
def rayMoves (b : Board) (r0 c0 : Int) (color : Color) : Nat → Int → Int → Int → Int → List Move
  | 0, _, _, _, _ => []
  | fuel + 1, nr, nc, dr, dc =>
    if inBounds nr nc then
      match bGet b nr nc with
      | none => { fromSq := (r0, c0), toSq := (nr, nc) : Move } ::
          rayMoves b r0 c0 color fuel (nr + dr) (nc + dc) dr dc
      | some t =>
        if pieceColor t ≠ color then [{ fromSq := (r0, c0), toSq := (nr, nc) : Move }] else []
    else []

def diagonalDirs : List (Int × Int) := [(1, 1), (1, -1), (-1, 1), (-1, -1)]

def orthogonalDirs : List (Int × Int) := [(1, 0), (-1, 0), (0, 1), (0, -1)]

/-- `_slider_moves`. -/
def sliderMoves (b : Board) (r c : Int) (color : Color)
    (diagonals orthogonals : Bool) : List Move :=
  let dirs := (if diagonals then diagonalDirs else []) ++ (if orthogonals then orthogonalDirs else [])
  dirs.foldr (fun d acc => rayMoves b r c color 5 (r + d.1) (c + d.2) d.1 d.2 ++ acc) []

def kingDeltas : List (Int × Int) :=
  [(-1, -1), (-1, 0), (-1, 1), (0, -1), (0, 1), (1, -1), (1, 0), (1, 1)]

/-- `_king_moves` (the two nested `for dr/dc` loops skip `(0,0)`, giving
exactly `kingDeltas` in this order). -/
def kingMoves (b : Board) (r c : Int) (color : Color) : List Move :=
  kingDeltas.foldr (fun d acc =>
    (let nr := r + d.1
     let nc := c + d.2
     if inBounds nr nc then
       match bGet b nr nc with
       | none => [{ fromSq := (r, c), toSq := (nr, nc) : Move }]
       | some t => if pieceColor t ≠ color then [{ fromSq := (r, c), toSq := (nr, nc) : Move }] else []
     else []) ++ acc) []

/-- `_piece_moves`: dispatch on the (upper cased) piece letter. -/
def pieceMoves (b : Board) (r c : Int) (p : Piece) : List Move :=
  match p.kind with
  | .P => pawnMoves b r c (pieceColor p)
  | .N => knightMoves b r c (pieceColor p)
  | .B => sliderMoves b r c (pieceColor p) true false
  | .R => sliderMoves b r c (pieceColor p) false true
  | .Q => sliderMoves b r c (pieceColor p) true true
  | .K => kingMoves b r c (pieceColor p)

/-- `_find_king`: first square (row-major) holding the king of `color`. -/
def findKing (b : Board) (color : Color) : Option (Int × Int) :=
  ((List.range 5).foldr (fun r acc =>
    ((List.range 5).foldr (fun c acc2 =>
      (if bGet b (r : Int) (c : Int) = some ⟨color, Kind.K⟩ then
        [((r : Int), (c : Int))] else []) ++ acc2) []) ++ acc) []).head?

/-- One attack ray of `_square_attacked` (sliding attackers). -/
def rayHit (b : Board) (byColor : Color) (kinds : List Kind) :
    Nat → Int → Int → Int → Int → Bool
  | 0, _, _, _, _ => false
  | fuel + 1, nr, nc, dr, dc =>
    if inBounds nr nc then
      match bGet b nr nc with
      | none => rayHit b byColor kinds fuel (nr + dr) (nc + dc) dr dc
      | some p => pieceColor p = byColor && kinds.contains p.kind
    else false

/-- `_square_attacked`: pawn, knight, sliding and king attacks on `(r, c)`
by pieces of `byColor`. -/
def squareAttacked (b : Board) (r c : Int) (byColor : Color) : Bool :=
  let pawnDir : Int := if byColor = Color.W then 1 else -1
  let pawnHit := ([-1, 1] : List Int).any (fun dc =>
    let pr := r - pawnDir
    let pc := c - dc
    inBounds pr pc && bGet b pr pc = some ⟨byColor, Kind.P⟩)
  let knightHit := knightDeltas.any (fun d =>
    inBounds (r + d.1) (c + d.2) && bGet b (r + d.1) (c + d.2) = some ⟨byColor, Kind.N⟩)
  let diagHit := diagonalDirs.any (fun d =>
    rayHit b byColor [Kind.B, Kind.Q] 5 (r + d.1) (c + d.2) d.1 d.2)
  let orthHit := orthogonalDirs.any (fun d =>
    rayHit b byColor [Kind.R, Kind.Q] 5 (r + d.1) (c + d.2) d.1 d.2)
  let kingHit := kingDeltas.any (fun d =>
    inBounds (r + d.1) (c + d.2) && bGet b (r + d.1) (c + d.2) = some ⟨byColor, Kind.K⟩)
  pawnHit || knightHit || diagHit || orthHit || kingHit

/-- `_is_in_check` (a missing king counts as checked). -/
def isInCheck (b : Board) (color : Color) : Bool :=
  match findKing b color with
  | none => true
  | some kp => squareAttacked b kp.1 kp.2 color.other

/-- Immutable Gardner MiniChess state (5×5, no castling/en passant, single
pawn push). -/
structure GameState where
  board : Board
  toMove : Color
  moveHistory : List Move := []
  halfmoveClock : Nat := 0
  positionHistory : List (Board × Color) := []
deriving DecidableEq

/-- `legal_moves`: all pseudo-legal moves of the side to move whose
application does not leave that side's king in check. -/
def legalMoves (s : GameState) : List Move :=
  let pseudo := (List.range 5).foldr (fun r acc =>
    ((List.range 5).foldr (fun c acc2 =>
      (match bGet s.board (r : Int) (c : Int) with
       | none => []
       | some p => if pieceColor p = s.toMove then pieceMoves s.board (r : Int) (c : Int) p else []) ++
        acc2) []) ++ acc) []
  pseudo.filter (fun m => !isInCheck (applyMove s.board m) s.toMove)

/-- The halfmove-clock reset test of `make_move`: is the moved piece a pawn? -/
def isPawnMoveB (s : GameState) (m : Move) : Bool :=
  match bGet s.board m.fromSq.1 m.fromSq.2 with
  | some p => p.kind = Kind.P
  | none => false

/-- The halfmove-clock reset test of `make_move`: is the destination occupied? -/
def isCaptureB (s : GameState) (m : Move) : Bool :=
  (bGet s.board m.toSq.1 m.toSq.2).isSome

/-- The successor state built by `make_move` (the part after the optional
validation): apply the move, flip the side to move, append to the move
history, reset or bump the halfmove clock, record the prior position. -/
def makeMoveU (s : GameState) (m : Move) : GameState :=
  { board := applyMove s.board m
    toMove := s.toMove.other
    moveHistory := s.moveHistory ++ [m]
    halfmoveClock := if isPawnMoveB s m || isCaptureB s m then 0 else s.halfmoveClock + 1
    positionHistory := s.positionHistory ++ [(s.board, s.toMove)] }

/-- `make_move`: `none` models the `ValueError("Illegal move")` raised when
`validate` is set and the move is not legal. -/
def makeMove (s : GameState) (m : Move) (validate : Bool) : Option GameState :=
  if validate && !(decide (m ∈ legalMoves s)) then none
  else some (makeMoveU s m)

/-- `_insufficient_material`: only kings remain. -/
def insufficientMaterial (s : GameState) : Bool :=
  ((s.board : List (List (Option Piece))).foldr (fun row acc =>
    row.foldr (fun cell acc2 =>
      (match cell with
       | some p => if p.kind ≠ Kind.K then [p] else []
       | none => []) ++ acc2) [] ++ acc) []).isEmpty

/-- `is_draw`: threefold repetition (two prior occurrences of the current
(board, side) pair), the 50-move rule (halfmove clock at 100), or only
kings remaining. -/
def isDraw (s : GameState) : Bool :=
  if 2 ≤ s.positionHistory.count (s.board, s.toMove) then true
  else if 100 ≤ s.halfmoveClock then true
  else if insufficientMaterial s then true
  else false

/-- `is_terminal`: draw, or no legal moves. -/
def isTerminal (s : GameState) : Bool :=
  if isDraw s then true else (legalMoves s).isEmpty

/-- `_result_no_moves`: the side to move has no legal moves; checkmate if it
is in check (the mover lost), stalemate otherwise. -/
def resultNoMoves (s : GameState) : Rat :=
  if isInCheck s.board s.toMove then
    if s.toMove = Color.B then 1 else -1
  else 0

/-- `result`: `none` models the `ValueError("Game not finished")` raised on
a non-terminal state. -/
def result (s : GameState) : Option Rat :=
  if !isTerminal s then none
  else if isDraw s then some 0
  else if isInCheck s.board s.toMove then
    some (if s.toMove = Color.B then 1 else -1)
  else some 0

/-- `terminal_result`: draw check first, then one move generation deciding
terminality and outcome. -/
def terminalResult (s : GameState) : Bool × Rat :=
  if isDraw s then (true, 0)
  else if !(legalMoves s).isEmpty then (false, 0)
  else (true, resultNoMoves s)

/-- `initial_board`: canonical Gardner start, White on rows 0–1. -/
def initialBoard : Board :=
  let wP : Option Piece := some ⟨Color.W, Kind.P⟩
  let bP : Option Piece := some ⟨Color.B, Kind.P⟩
  [[some ⟨Color.W, Kind.R⟩, some ⟨Color.W, Kind.N⟩, some ⟨Color.W, Kind.B⟩,
    some ⟨Color.W, Kind.Q⟩, some ⟨Color.W, Kind.K⟩],
   [wP, wP, wP, wP, wP],
   [none, none, none, none, none],
   [bP, bP, bP, bP, bP],
   [some ⟨Color.B, Kind.R⟩, some ⟨Color.B, Kind.N⟩, some ⟨Color.B, Kind.B⟩,
    some ⟨Color.B, Kind.Q⟩, some ⟨Color.B, Kind.K⟩]]

/-- `initial_state` (White to move). -/
def initialState : GameState :=
  { board := initialBoard, toMove := Color.W }

/-! ### Applying a sequence of unvalidated moves (used by the 50-move-rule claim) -/

/-- `make_move` applied along a list of moves (each with `validate=False`). -/
def applySeq (s : GameState) (ms : List Move) : GameState :=
  ms.foldl makeMoveU s

/-- Every move of the list, applied in sequence, is a non-pawn non-capture
halfmove in the sense of the halfmove-clock update of `make_move`. -/
def stepsOk : GameState → List Move → Bool
  | _, [] => true
  | s, m :: ms => (!isPawnMoveB s m && !isCaptureB s m) && stepsOk (makeMoveU s m) ms

/-! ### Shared evaluation constants (`evaluation.py`) -/

/-- `MATERIAL`: standard piece values, king effectively infinite. -/
def MATERIAL : Kind → Int
  | .P => 1
  | .N => 3
  | .B => 3
  | .R => 5
  | .Q => 9
  | .K => 1000

/-- Material balance of a board from White's perspective, kings included
(the summation loop shared by `MinimaxAgent._evaluate` and
`MCTSAgent._evaluate_position`). -/
def boardScore (b : Board) : Int :=
  b.foldr (fun row acc =>
    row.foldr (fun cell acc2 =>
      (match cell with
       | none => 0
       | some p => if p.color = Color.W then MATERIAL p.kind else -(MATERIAL p.kind)) + acc2) 0
    + acc) 0

/-! ### Minimax agent (`minimax_agent.py`)

Scores are Python floats that only ever hold integers, `-inf` or `+inf`
(material sums and `±10000`); they are embedded as `XScore`, integers
extended with two infinities (held as `Rat` so that the exact terminal
arithmetic `result * 10000` carries over).  All claims below concern runs
with `time_limit=None`, for which `_timed_out` returns `False` without
reading the clock, so no deadline parameter is threaded. -/

inductive XScore where
  | ninf
  | fin (q : Rat)
  | pinf
deriving DecidableEq, Repr

/-- `a <= b` on scores. -/
def XScore.ble : XScore → XScore → Bool
  | .ninf, _ => true
  | _, .pinf => true
  | .fin a, .fin b => a ≤ b
  | .pinf, _ => false
  | .fin _, .ninf => false

/-- `a < b` on scores. -/
def XScore.blt (a b : XScore) : Bool := !(XScore.ble b a)

/-- Python `max` of two scores. -/
def xmax (a b : XScore) : XScore := if XScore.blt a b then b else a

/-- Python `min` of two scores. -/
def xmin (a b : XScore) : XScore := if XScore.blt b a then b else a

/-- `_TTFlag`: transposition table entry type. -/
inductive TTFlag where
  | EXACT
  | LOWER
  | UPPER
deriving DecidableEq, Repr

/-- One transposition table value: `(depth, score, flag, best_move)`. -/
structure TTEntry where
  depth : Nat
  score : XScore
  flag : TTFlag
  move : Option Move
deriving DecidableEq, Repr

/-- The transposition table `(board, to_move) -> entry` (a Python dict,
embedded as an association list; only keyed lookup and overwrite are used,
so the entry order is irrelevant). -/
abbrev TT := List ((Board × Color) × TTEntry)

def lookupTT (tt : TT) (k : Board × Color) : Option TTEntry :=
  (tt.find? (fun e => decide (e.1 = k))).map (·.2)

/-- Dict assignment `self._tt[key] = v`. -/
def insertTT (tt : TT) (k : Board × Color) (v : TTEntry) : TT :=
  tt.filter (fun e => !(decide (e.1 = k))) ++ [(k, v)]

/-- `MinimaxAgent._evaluate`: material balance from `perspective`'s side. -/
def evaluate (s : GameState) (perspective : Color) : Int :=
  if perspective = Color.W then boardScore s.board else -(boardScore s.board)

/-- The sort key of `_order_moves_with_pv`: PV/TT move 1000, captures
100 + captured value, quiet 0. -/
def moveScoreKey (b : Board) (pv : Option Move) (m : Move) : Int :=
  if pv = some m then 1000
  else
    match bGet b m.toSq.1 m.toSq.2 with
    | some t => 100 + MATERIAL t.kind
    | none => 0

/-- Insert into a list sorted descending by `key`, before the first element
whose key is not larger (so equal keys keep their original relative order,
as Python's stable `sorted(..., reverse=True)` does). -/
def insertDesc (key : Move → Int) (m : Move) : List Move → List Move
  | [] => [m]
  | x :: xs => if key m < key x then x :: insertDesc key m xs else m :: x :: xs

/-- Stable descending sort by `key` (Python `sorted(moves, key=move_score,
reverse=True)`). -/
def sortDesc (key : Move → Int) : List Move → List Move
  | [] => []
  | x :: xs => insertDesc key x (sortDesc key xs)

/-- `_order_moves_with_pv`. -/
def orderMovesWithPv (b : Board) (moves : List Move) (pv : Option Move) : List Move :=
  match moves with
  | [] => moves
  | _ => sortDesc (moveScoreKey b pv) moves

/-- The maximizing move loop of `_search` (children searched through the
given `search` function at one less depth): returns
`(value, alpha, best_move_here, table)`; stops early on `beta <= alpha`. -/
def smMaxGo (search : GameState → XScore → XScore → TT → XScore × TT) :
    List Move → GameState → XScore → XScore → XScore → Option Move → TT →
      XScore × XScore × Option Move × TT
  | [], _, v, alpha, _, bm, tt => (v, alpha, bm, tt)
  | m :: ms, s, v, alpha, beta, bm, tt =>
    let r := search (makeMoveU s m) alpha beta tt
    let v' := if XScore.blt v r.1 then r.1 else v
    let bm' := if XScore.blt v r.1 then some m else bm
    let alpha' := xmax alpha v'
    if XScore.ble beta alpha' then (v', alpha', bm', r.2)
    else smMaxGo search ms s v' alpha' beta bm' r.2

/-- The minimizing move loop of `_search`: returns
`(value, beta, best_move_here, table)`; stops early on `beta <= alpha`. -/
def smMinGo (search : GameState → XScore → XScore → TT → XScore × TT) :
    List Move → GameState → XScore → XScore → XScore → Option Move → TT →
      XScore × XScore × Option Move × TT
  | [], _, v, _, beta, bm, tt => (v, beta, bm, tt)
  | m :: ms, s, v, alpha, beta, bm, tt =>
    let r := search (makeMoveU s m) alpha beta tt
    let v' := if XScore.blt r.1 v then r.1 else v
    let bm' := if XScore.blt r.1 v then some m else bm
    let beta' := xmin beta v'
    if XScore.ble beta' alpha then (v', beta', bm', r.2)
    else smMinGo search ms s v' alpha beta' bm' r.2

/-- The part of `_search` after the transposition probe, at remaining
depth `d + 1` (children are searched through `search`, at depth `d`):
move ordering, the maximizing or minimizing loop, and the store tagged by
comparing the value against the loop's final bounds. -/
def smBody (search : GameState → XScore → XScore → TT → XScore × TT) (s : GameState)
    (d : Nat) (alpha beta : XScore) (mc : Color) (tt : TT) (ttMove : Option Move) :
    XScore × TT :=
  let ordered := orderMovesWithPv s.board (legalMoves s) ttMove
  if s.toMove = mc then
    let r := smMaxGo search ordered s XScore.ninf alpha beta none tt
    let flag :=
      if XScore.ble r.1 r.2.1 then TTFlag.UPPER
      else if XScore.ble beta r.1 then TTFlag.LOWER
      else TTFlag.EXACT
    (r.1, insertTT r.2.2.2 (s.board, s.toMove) ⟨d + 1, r.1, flag, r.2.2.1⟩)
  else
    let r := smMinGo search ordered s XScore.pinf alpha beta none tt
    let flag :=
      if XScore.ble r.1 alpha then TTFlag.UPPER
      else if XScore.ble r.2.1 r.1 then TTFlag.LOWER
      else TTFlag.EXACT
    (r.1, insertTT r.2.2.2 (s.board, s.toMove) ⟨d + 1, r.1, flag, r.2.2.1⟩)

/-- `MinimaxAgent._search` with `deadline=None` (`_timed_out` is then
constantly false): terminal check, depth-0 static evaluation,
transposition probe, then the alpha-beta move loop and the table store.
The table is threaded explicitly in place of the mutated `self._tt`; the
fixed `maximizing_color` comes first so that the recursion is structural
in the remaining depth. -/
def smSearch (mc : Color) : Nat → GameState → XScore → XScore → TT → XScore × TT
  | depth, s, alpha, beta, tt =>
    let tr := terminalResult s
    if tr.1 then
      let terminalScore : Rat := tr.2 * 10000
      (XScore.fin (if mc = Color.W then terminalScore else -terminalScore), tt)
    else
      match depth with
      | 0 => (XScore.fin ((evaluate s mc : Int) : Rat), tt)
      | d + 1 =>
        match lookupTT tt (s.board, s.toMove) with
        | some e =>
          if d + 1 ≤ e.depth then
            if e.flag = TTFlag.EXACT then (e.score, tt)
            else
              let alpha' := if e.flag = TTFlag.LOWER then xmax alpha e.score else alpha
              let beta' := if e.flag = TTFlag.UPPER then xmin beta e.score else beta
              if XScore.ble beta' alpha' then (e.score, tt)
              else smBody (smSearch mc d) s d alpha' beta' mc tt e.move
          else smBody (smSearch mc d) s d alpha beta mc tt e.move
        | none => smBody (smSearch mc d) s d alpha beta mc tt none

/-! ### MCTS agent (`mcts_agent.py`)

The private random source `random.Random(seed)` is a deterministic
function of the seed; it is embedded as an oracle `stream : Nat → Nat`
whose `k`-th value decides the `k`-th `choice` call (as an index into the
choice list), threaded through the computation by an explicit counter.
`math.log` / `math.sqrt` and the float exploration constant only feed the
UCB comparison and are embedded as arbitrary oracle functions over `Rat`.
The `while` selection descent of `_run_simulation` is bounded in the
source only by the wall-clock deadline; with `time_limit=None` it is given
explicit fuel here.  All claims below are about `time_limit=None` runs,
where `_timed_out` is identically false. -/

def defaultMove : Move := { fromSq := (0, 0), toSq := (0, 0) }

/-- `random.choice(xs)`: one draw from the stream picks an element. -/
def pyChoice (stream : Nat → Nat) (k : Nat) (xs : List Move) : Move :=
  xs.getD (stream k % xs.length) defaultMove

/-- The MCTS construction parameters that influence `choose_move`, plus
the oracles standing for `math.log`, `math.sqrt` and the selection fuel. -/
structure MCfg where
  simulations : Nat
  explorationC : Rat
  rolloutDepth : Nat
  rolloutPolicy : String
  logQ : Rat → Rat
  sqrtQ : Rat → Rat
  selFuel : Nat

/-- `_choose_rollout_move`: under the `capture_bias` policy pick among the
capturing moves when any exist, else among all legal moves (one stream
draw either way). -/
def chooseRolloutMove (cfg : MCfg) (stream : Nat → Nat) (k : Nat) (s : GameState)
    (moves : List Move) : Move :=
  if cfg.rolloutPolicy = "capture_bias" then
    let captures := moves.filter (fun m => (bGet s.board m.toSq.1 m.toSq.2).isSome)
    if !captures.isEmpty then pyChoice stream k captures
    else pyChoice stream k moves
  else pyChoice stream k moves

/-- `_evaluate_position`: material balance over total non-king material,
divisor floored at 20 (Python true division of two ints, embedded as the
exact rational `mkRat`). -/
def evalPos (s : GameState) : Rat :=
  let totalMaterial : Int :=
    s.board.foldr (fun row acc =>
      row.foldr (fun cell acc2 =>
        (match cell with
         | none => 0
         | some p => if p.kind ≠ Kind.K then MATERIAL p.kind else 0) + acc2) 0
      + acc) 0
  mkRat (boardScore s.board) (max totalMaterial 20).toNat

/-- The body of `_rollout` with `deadline=None`: at most
`fuel = rollout_depth - depth` more plies; per iteration: terminal check,
the material early-exit check once more than 5 plies were played, then one
policy move.  Returns the value (White's perspective) and the advanced
stream counter. -/
def rolloutGo (cfg : MCfg) (stream : Nat → Nat) :
    Nat → GameState → Nat → Nat → Rat × Nat
  | 0, current, _, k => (evalPos current, k)
  | fuel + 1, current, depth, k =>
    let moves := legalMoves current
    if moves.isEmpty then (resultNoMoves current, k)
    else if 5 < depth ∧ mkRat 1 2 < |evalPos current| then (evalPos current, k)
    else
      rolloutGo cfg stream fuel
        (makeMoveU current (chooseRolloutMove cfg stream k current moves)) (depth + 1) (k + 1)

/-- `_rollout` from a state, starting at rollout depth 0. -/
def rolloutFrom (cfg : MCfg) (stream : Nat → Nat) (s : GameState) (k : Nat) : Rat × Nat :=
  rolloutGo cfg stream cfg.rolloutDepth s 0 k

/-- One stepping iteration of the `_rollout` loop (no early exit taken):
play one policy move, consuming one stream draw. -/
def rolloutStep (cfg : MCfg) (stream : Nat → Nat) (s : GameState) (k : Nat) :
    Option (GameState × Nat) :=
  let moves := legalMoves s
  if moves.isEmpty then none
  else some (makeMoveU s (chooseRolloutMove cfg stream k s moves), k + 1)

/-- `n` rollout plies in a row (`none` when a terminal state intervenes). -/
def trajN (cfg : MCfg) (stream : Nat → Nat) : Nat → GameState → Nat → Option (GameState × Nat)
  | 0, s, k => some (s, k)
  | n + 1, s, k =>
    match rolloutStep cfg stream s k with
    | none => none
    | some (s', k') => trajN cfg stream n s' k'

/-- Node identity: `_Node` objects live in the `nodes` dict keyed by
`(board, to_move)`, so an object reference is embedded as its key. -/
abbrev NodeKey := Board × Color

def stateKey (s : GameState) : NodeKey := (s.board, s.toMove)

/-- `_Node`: owning state, visit count, accumulated value (side-to-move
perspective), not-yet-expanded moves, and the insertion-ordered child map
(move ↦ child reference). -/
structure NodeData where
  state : GameState
  visits : Nat := 0
  value : Rat := 0
  untried : List Move := []
  children : List (Move × NodeKey) := []

/-- The `nodes` dict: heap of `_Node` objects addressed by position key. -/
abbrev NodeStore := List (NodeKey × NodeData)

def lookupNode (store : NodeStore) (k : NodeKey) : Option NodeData :=
  (store.find? (fun e => decide (e.1 = k))).map (·.2)

def defaultNodeData : NodeData := { state := initialState }

/-- Dereference a node object (every key used in a run is present). -/
def derefNode (store : NodeStore) (k : NodeKey) : NodeData :=
  (lookupNode store k).getD defaultNodeData

/-- Mutate the node object held at `k`. -/
def updateNode (store : NodeStore) (k : NodeKey) (f : NodeData → NodeData) : NodeStore :=
  store.map (fun e => if e.1 = k then (e.1, f e.2) else e)

/-- `_get_node`: fetch the node of this position or create it with its
untried moves pre-ordered captures-first. -/
def getNode (store : NodeStore) (s : GameState) (legal : List Move) : NodeKey × NodeStore :=
  let key := stateKey s
  match lookupNode store key with
  | some _ => (key, store)
  | none =>
    let captures := legal.filter (fun m => (bGet s.board m.toSq.1 m.toSq.2).isSome)
    let quiet := legal.filter (fun m => (bGet s.board m.toSq.1 m.toSq.2).isNone)
    (key, store ++ [(key, { state := s, untried := captures ++ quiet })])

/-- Python `max(xs, key=f)` over a nonempty list `x :: xs`: the first
element attaining the maximal key. -/
def pyMaxBy {α β : Type} [LinearOrder β] (key : α → β) (x : α) (xs : List α) : α :=
  xs.foldl (fun best y => if key best < key y then y else best) x

/-- `_select_child`: UCB1 with unvisited children scored infinite, the
mean sign-flipped when the child's side to move differs from the
parent's. -/
def selectChild (cfg : MCfg) (store : NodeStore) (k : NodeKey) : NodeKey :=
  let nd := derefNode store k
  let logParent := cfg.logQ (nd.visits : Rat)
  let score : NodeKey → WithTop Rat := fun ck =>
    let c := derefNode store ck
    if c.visits = 0 then ⊤
    else
      let sign : Rat := if nd.state.toMove ≠ c.state.toMove then -1 else 1
      let mean := sign * (c.value / (c.visits : Rat))
      let explore := cfg.explorationC * cfg.sqrtQ (logParent / (c.visits : Rat))
      ((mean + explore : Rat) : WithTop Rat)
  match (derefNode store k).children with
  | [] => k
  | c :: cs => pyMaxBy score c.2 (cs.map (·.2))

/-- The selection descent of `_run_simulation`: walk down while the node
is fully expanded and has children (fuel-bounded; the source bounds this
loop only by the deadline). -/
def selectLoop (cfg : MCfg) (store : NodeStore) :
    Nat → NodeKey → List NodeKey → NodeKey × List NodeKey
  | 0, k, path => (k, path)
  | fuel + 1, k, path =>
    let nd := derefNode store k
    if nd.untried.isEmpty && !nd.children.isEmpty then
      let ck := selectChild cfg store k
      selectLoop cfg store fuel ck (path ++ [ck])
    else (k, path)

/-- One simulation of `_run_simulation` with `deadline=None`: selection,
expansion (pop the last untried move, fetch or create the child through
the node table, link it), rollout, and backpropagation along the path. -/
def runSimulation (cfg : MCfg) (stream : Nat → Nat) (rootKey : NodeKey)
    (store : NodeStore) (k : Nat) : NodeStore × Nat :=
  let sel := selectLoop cfg store cfg.selFuel rootKey [rootKey]
  let nd := derefNode store sel.1
  let expanded : NodeStore × List NodeKey × GameState :=
    if !nd.untried.isEmpty then
      let m := (nd.untried.getLast? ).getD defaultMove
      let store1 := updateNode store sel.1 (fun n => { n with untried := n.untried.dropLast })
      let nextState := makeMoveU nd.state m
      let gn := getNode store1 nextState (legalMoves nextState)
      let store2 := updateNode gn.2 sel.1 (fun n => { n with children := n.children ++ [(m, gn.1)] })
      (store2, sel.2 ++ [gn.1], nextState)
    else (store, sel.2, nd.state)
  let ro := rolloutGo cfg stream cfg.rolloutDepth expanded.2.2 0 k
  let backed := expanded.2.1.foldl (fun st nk =>
    updateNode st nk (fun n =>
      { n with
        visits := n.visits + 1
        value := n.value + (if n.state.toMove = Color.W then ro.1 else -ro.1) })) expanded.1
  (backed, ro.2)

/-- The simulation loop of `choose_move` with no time limit: exactly
`simulations` simulations from a fresh node table, returning the final
table (the root lives at `stateKey s`). -/
def mctsRun (cfg : MCfg) (stream : Nat → Nat) (s : GameState) : NodeStore :=
  let g := getNode [] s (legalMoves s)
  ((List.range cfg.simulations).foldl
    (fun acc _ => runSimulation cfg stream g.1 acc.1 acc.2) (g.2, 0)).1

/-- `MCTSAgent.choose_move` with `time_limit=None`: `none` models the
`ValueError` on no legal moves; single legal move returned immediately;
otherwise the move to the most-visited root child, or the first legal
move if the root has no children. -/
def chooseMoveMCTS (cfg : MCfg) (stream : Nat → Nat) (s : GameState) : Option Move :=
  let legal := legalMoves s
  if legal.isEmpty then none
  else if legal.length = 1 then some (legal.headD defaultMove)
  else
    let final := mctsRun cfg stream s
    match (derefNode final (stateKey s)).children with
    | [] => some (legal.headD defaultMove)
    | c :: cs =>
      some (pyMaxBy (fun mc : Move × NodeKey => (derefNode final mc.2).visits) c cs).1

/-! ### Concrete positions used as witnesses and counterexamples -/

def emptyRow : List (Option Piece) := [none, none, none, none, none]

/-- Two bare kings; used to exercise the 50-move rule. -/
def sC2 : GameState :=
  { board :=
      [[some ⟨Color.W, Kind.K⟩, none, none, none, none],
       emptyRow, emptyRow, emptyRow,
       [none, none, none, none, some ⟨Color.B, Kind.K⟩]]
    toMove := Color.W }

def mvA : Move := { fromSq := (0, 0), toSq := (0, 1) }

def mvB : Move := { fromSq := (0, 1), toSq := (0, 0) }

/-- 100 consecutive king shuffles, none a pawn move or a capture. -/
def msC2 : List Move := (List.replicate 50 [mvA, mvB]).flatten

/-- White king and pawn against the black king: a quiet non-terminal
middlegame position for the transposition-store counterexample. -/
def sC3 : GameState :=
  { board :=
      [[some ⟨Color.W, Kind.K⟩, none, none, none, none],
       emptyRow,
       [none, none, some ⟨Color.W, Kind.P⟩, none, none],
       emptyRow,
       [none, none, none, none, some ⟨Color.B, Kind.K⟩]]
    toMove := Color.W }

/-- MCTS parameters for the rollout early-exit counterexample (oracle
`log`/`sqrt` never reached by a bare rollout). -/
def cfgC5 : MCfg :=
  { simulations := 1
    explorationC := 1
    rolloutDepth := 10
    rolloutPolicy := "capture_bias"
    logQ := fun _ => 0
    sqrtQ := fun _ => 0
    selFuel := 0 }

/-- The rollout move choices: white shuffles its king, black walks its
king to the white pawn and is then forced to capture it. -/
def streamC5 : Nat → Nat := fun k => [0, 1, 0, 3, 0, 0].getD k 0

/-- White king, rook, queen and two pawns against the bare black king;
material 16 gives normalized evaluation 16/20 > 1/2 from ply 0 on, and
the forced pawn capture at ply 6 moves it to 15/20. -/
def sC5 : GameState :=
  { board :=
      [[some ⟨Color.W, Kind.K⟩, none, none, some ⟨Color.W, Kind.R⟩, some ⟨Color.W, Kind.Q⟩],
       [none, none, none, some ⟨Color.W, Kind.P⟩, none],
       emptyRow,
       [none, none, none, some ⟨Color.W, Kind.P⟩, none],
       [none, some ⟨Color.B, Kind.K⟩, none, none, none]]
    toMove := Color.W }

/-- The state reached by the first five rollout plies from `sC5`. -/
def s5C5 : GameState := ((trajN cfgC5 streamC5 5 sC5 0).getD (sC5, 0)).1

/-- The state reached by the first six rollout plies from `sC5`. -/
def s6C5 : GameState := ((trajN cfgC5 streamC5 6 sC5 0).getD (sC5, 0)).1

/-- A zero-simulation configuration: the root keeps no children, forcing
the first-legal-move fallback of `choose_move`. -/
def cfgC7w : MCfg := { cfgC5 with simulations := 0 }

/-! ### Constructor validation (`MCTSAgent.__init__`, `MinimaxAgent.__init__`) -/

/-- `MCTSAgent.__init__` parameter validation: `false` models the
`ValueError` raised for non-positive `simulations`, a provided
non-positive `time_limit`, non-positive `rollout_depth`, or non-positive
`exploration_c` (checked in this order). -/
def MCTSAgent_init_ok (simulations : Int) (timeLimit : Option Rat) (explorationC : Rat)
    (rolloutDepth : Int) : Bool :=
  if simulations ≤ 0 then false
  else if (match timeLimit with | none => false | some t => decide (t ≤ 0)) then false
  else if rolloutDepth ≤ 0 then false
  else if explorationC ≤ 0 then false
  else true

/-- `MinimaxAgent.__init__` parameter validation: the only check in the
source is `depth < 0`; `time_limit` is stored without validation. -/
def MinimaxAgent_init_ok (depth : Int) (timeLimit : Option Rat) : Bool :=
  if depth < 0 then false else true

/-! ### The claims under dispute, formalized as stated -/

/-- C3 as stated: every entry the search stores for the node it searched
is tagged EXACT/UPPER/LOWER according to where its score lies relative to
the alpha and beta bounds the node was searched with, and carries the
depth searched. -/
def ClaimC3Statement : Prop :=
  ∀ (s : GameState) (d : Nat) (alpha beta : XScore) (mc : Color) (e : TTEntry),
    lookupTT (smSearch mc (d + 1) s alpha beta []).2 (s.board, s.toMove) = some e →
      e.depth = d + 1 ∧
      (e.flag = TTFlag.EXACT ↔
        (XScore.blt alpha e.score = true ∧ XScore.blt e.score beta = true)) ∧
      (e.flag = TTFlag.UPPER ↔ XScore.ble e.score alpha = true) ∧
      (e.flag = TTFlag.LOWER ↔ XScore.ble beta e.score = true)

/-- C4 as stated: construction fails exactly on the listed invalid
parameters — including, for the minimax agent, a provided non-positive
time limit. -/
def ClaimC4Statement : Prop :=
  (∀ (sims : Int) (tl : Option Rat) (c : Rat) (rd : Int),
    MCTSAgent_init_ok sims tl c rd = false ↔
      (sims ≤ 0 ∨ rd ≤ 0 ∨ c ≤ 0 ∨ ∃ t, tl = some t ∧ t ≤ 0)) ∧
  (∀ (d : Int) (tl : Option Rat),
    MinimaxAgent_init_ok d tl = false ↔ (d < 0 ∨ ∃ t, tl = some t ∧ t ≤ 0))

/-- C5 as stated: once 5 rollout plies have been played, a normalized
material evaluation of absolute value above 1/2 stops the rollout
immediately with that evaluation. -/
def ClaimC5Statement : Prop :=
  ∀ (cfg : MCfg) (stream : Nat → Nat) (s s5 : GameState) (k5 : Nat),
    5 < cfg.rolloutDepth →
    trajN cfg stream 5 s 0 = some (s5, k5) →
    (legalMoves s5).isEmpty = false →
    mkRat 1 2 < |evalPos s5| →
    (rolloutFrom cfg stream s 0).1 = evalPos s5

/-! ## Theorems -/

/-- Helper: along non-pawn non-capture halfmoves the halfmove clock only
increments. -/
theorem applySeq_halfmoveClock (ms : List Move) :
    ∀ s : GameState, stepsOk s ms = true →
      (applySeq s ms).halfmoveClock = s.halfmoveClock + ms.length := by
  induction ms with
  | nil => intro s _; simp [applySeq]
  | cons m ms ih =>
    intro s h
    simp only [stepsOk, Bool.and_eq_true, Bool.not_eq_true'] at h
    obtain ⟨⟨h1, h2⟩, h3⟩ := h
    have hstep : (makeMoveU s m).halfmoveClock = s.halfmoveClock + 1 := by
      simp [makeMoveU, h1, h2]
    have := ih (makeMoveU s m) h3
    simp only [applySeq, List.foldl_cons, List.length_cons] at this ⊢
    rw [this, hstep]
    omega

/--
C1: `result` fails (is `none`, modelling the GameNotFinished error) on a
non-terminal state; on a terminal state it is 0 on a draw, else — which is
exactly the no-legal-moves case, by the second equation — +1 when the side
to move is Black and in check, -1 when it is White and in check, and 0
(stalemate) when the side to move is not in check.
-/
theorem result_spec (s : GameState) :
    result s =
      (if isTerminal s then
        some (if isDraw s then (0 : Rat)
          else if isInCheck s.board s.toMove then (if s.toMove = Color.B then 1 else -1)
          else 0)
      else none) ∧
    isTerminal s = (isDraw s || (legalMoves s).isEmpty) := by
  constructor
  · by_cases ht : isTerminal s <;> by_cases hd : isDraw s <;>
      by_cases hch : isInCheck s.board s.toMove <;> simp [result, ht, hd, hch]
  · by_cases hd : isDraw s <;> simp [isTerminal, hd]

/--
C2: `is_draw` holds exactly when the current (board, side) pair occurs at
least twice in the position history, or the halfmove clock reached 100, or
only kings remain; consequently 100 consecutive non-pawn non-capture
halfmoves from any position force a draw.
-/
theorem isDraw_conditions (s : GameState) (ms : List Move) :
    (isDraw s = true ↔
      (2 ≤ s.positionHistory.count (s.board, s.toMove) ∨ 100 ≤ s.halfmoveClock ∨
        insufficientMaterial s = true)) ∧
    (ms.length = 100 → stepsOk s ms = true → isDraw (applySeq s ms) = true) := by
  constructor
  · unfold isDraw
    split_ifs <;> simp_all
  · intro hlen hok
    have hc := applySeq_halfmoveClock ms s hok
    rw [hlen] at hc
    have h100 : 100 ≤ (applySeq s ms).halfmoveClock := by omega
    unfold isDraw
    split_ifs <;> simp_all

/-- Witness for C2: a concrete sequence of 100 king shuffles from a
two-king position reaches a drawn state. -/
theorem isDraw_conditions_witness :
    stepsOk sC2 msC2 = true ∧ isDraw (applySeq sC2 msC2) = true :=
  ⟨by decide, (isDraw_conditions sC2 msC2).2 (by decide) (by decide)⟩

/--
C6: from the initial Gardner position, `legal_moves` returns exactly the
two knight moves and the five single-square pawn pushes of White, in the
deterministic row-major generation order.
-/
theorem legalMoves_initial :
    legalMoves initialState =
      [{ fromSq := (0, 1), toSq := (2, 2) }, { fromSq := (0, 1), toSq := (2, 0) },
       { fromSq := (1, 0), toSq := (2, 0) }, { fromSq := (1, 1), toSq := (2, 1) },
       { fromSq := (1, 2), toSq := (2, 2) }, { fromSq := (1, 3), toSq := (2, 3) },
       { fromSq := (1, 4), toSq := (2, 4) }] ∧
    (legalMoves initialState).length = 7 := by
  constructor <;> decide

/--
C9: `terminal_result` agrees with the separate operations: its first
component is `is_terminal`, and its second component is the value of
`result` on terminal states (and 0 on non-terminal ones, where `result`
fails).
-/
theorem terminalResult_consistent (s : GameState) :
    (terminalResult s).1 = isTerminal s ∧
      result s = (if isTerminal s then some (terminalResult s).2 else none) ∧
      ((terminalResult s).1 = false → (terminalResult s).2 = 0) := by
  by_cases hd : isDraw s
  · refine ⟨?_, ?_, ?_⟩ <;> simp [terminalResult, isTerminal, result, hd]
  · by_cases hl : (legalMoves s).isEmpty
    · by_cases hc : isInCheck s.board s.toMove <;>
        refine ⟨?_, ?_, ?_⟩ <;>
          simp [terminalResult, isTerminal, result, resultNoMoves, hd, hl, hc]
    · refine ⟨?_, ?_, ?_⟩ <;> simp [terminalResult, isTerminal, result, hd, hl]

/-- Witness for C9: the initial position is not terminal and its combined
result component is 0. -/
theorem terminalResult_consistent_witness :
    (terminalResult initialState).2 = 0 :=
  (terminalResult_consistent initialState).2.2 (by decide)

/--
C10: for a move from `legal_moves`, `make_move` with and without
validation produce the same successor, and the validated call does not
fail.
-/
theorem makeMove_validate_agnostic (s : GameState) (m : Move) (h : m ∈ legalMoves s) :
    makeMove s m true = makeMove s m false ∧
      makeMove s m true = some (makeMoveU s m) := by
  simp [makeMove, h]

/-- Witness for C10: the initial knight move is legal, and validation does
not change its successor. -/
theorem makeMove_validate_agnostic_witness :
    makeMove initialState { fromSq := (0, 1), toSq := (2, 2) } true =
      makeMove initialState { fromSq := (0, 1), toSq := (2, 2) } false :=
  (makeMove_validate_agnostic initialState { fromSq := (0, 1), toSq := (2, 2) }
    (by decide)).1

/-- Counterexample for C4: the minimax constructor accepts a provided
non-positive time limit, which the claim says must be rejected. -/
theorem agent_init_counterexample : ¬ ClaimC4Statement := by
  intro h
  have := (h.2 3 (some (-1))).mpr (Or.inr ⟨-1, rfl, by norm_num⟩)
  simp [MinimaxAgent_init_ok] at this

/--
C4 (amended): the MCTS constructor fails exactly on non-positive
simulations, rollout depth or exploration constant, or a provided
non-positive time limit; the minimax constructor fails exactly on a
negative depth (its time limit is stored unvalidated).
-/
theorem agent_init_validation (sims : Int) (tl : Option Rat) (c : Rat) (rd : Int)
    (d : Int) (tl2 : Option Rat) :
    (MCTSAgent_init_ok sims tl c rd = false ↔
      (sims ≤ 0 ∨ rd ≤ 0 ∨ c ≤ 0 ∨ ∃ t, tl = some t ∧ t ≤ 0)) ∧
    (MinimaxAgent_init_ok d tl2 = false ↔ d < 0) := by
  constructor
  · unfold MCTSAgent_init_ok
    cases tl with
    | none =>
      split_ifs with h1 h2 h3 h4 <;> simp_all <;> omega
    | some t =>
      by_cases htl : t ≤ 0 <;>
        split_ifs with h1 h2 h3 h4 <;> simp_all <;> try omega
  · unfold MinimaxAgent_init_ok
    split_ifs with h1 <;> simp [h1]

/-- Helper: every score is `ble`-below the Python `max` of it and any
other score. -/
theorem ble_xmax_right (a b : XScore) : XScore.ble b (xmax a b) = true := by
  unfold xmax
  by_cases h : XScore.blt a b = true
  · simp only [h, if_true]
    cases b <;> simp [XScore.ble]
  · simp only [h, if_false]
    unfold XScore.blt at h
    simpa using h

/-- Helper: the maximizing loop keeps its running value at or below its
running alpha (alpha is raised to the value after every move). -/
theorem smMaxGo_value_le_alpha (search : GameState → XScore → XScore → TT → XScore × TT) :
    ∀ (ms : List Move) (s : GameState) (v alpha beta : XScore) (bm : Option Move) (tt : TT),
      XScore.ble v alpha = true →
      XScore.ble (smMaxGo search ms s v alpha beta bm tt).1
        (smMaxGo search ms s v alpha beta bm tt).2.1 = true := by
  intro ms
  induction ms with
  | nil => intro s v alpha beta bm tt h; simpa [smMaxGo] using h
  | cons m ms ih =>
    intro s v alpha beta bm tt h
    rw [smMaxGo]
    by_cases hbr :
        XScore.ble beta
          (xmax alpha
            (if XScore.blt v (search (makeMoveU s m) alpha beta tt).1 then
              (search (makeMoveU s m) alpha beta tt).1 else v)) = true
    · simp only [hbr, if_true]
      exact ble_xmax_right _ _
    · simp only [hbr, if_false]
      exact ih _ _ _ _ _ _ (ble_xmax_right _ _)

/-- Helper: a fresh table entry is found by a lookup at its key. -/
theorem lookupTT_insertTT (tt : TT) (k : Board × Color) (v : TTEntry) :
    lookupTT (insertTT tt k v) k = some v := by
  unfold lookupTT insertTT
  induction tt with
  | nil => simp
  | cons e es ih =>
    by_cases h : e.1 = k
    · simpa [List.filter_cons, h] using ih
    · simpa [List.filter_cons, List.find?_cons, h] using ih

/-- Counterexample for C3: searching a quiet maximizing node with the
root window `(-inf, +inf)` stores a value strictly inside the window, yet
tags it UPPER (the store compares against the loop-raised alpha, not the
node's own bounds). -/
theorem smSearch_store_flag_counterexample : ¬ ClaimC3Statement := by
  intro h
  have h2 := h sC3 0 XScore.ninf XScore.pinf Color.W
      ⟨1, XScore.fin 1, TTFlag.UPPER, some mvA⟩ (by decide)
  exact absurd (h2.2.2.1.mp rfl) (by decide)

/--
C3 (amended): the table store of `_search` compares the node's value
against the bounds as mutated by the move loop; at a maximizing node
alpha has been raised to at least the final value, so the entry the node
stores for itself is always tagged UPPER, paired with the depth searched,
the value, and the recorded best move.  (Stated at remaining depth 1,
where the node's own store is the only write to its key; with no time
limit the search never times out, so the store always happens.)
-/
theorem smSearch_maximizing_store_upper (s : GameState) (alpha beta : XScore) (mc : Color)
    (tt : TT) (hmax : s.toMove = mc) (hterm : (terminalResult s).1 = false)
    (hprobe : lookupTT tt (s.board, s.toMove) = none) :
    ∃ bm, lookupTT (smSearch mc 1 s alpha beta tt).2 (s.board, s.toMove) =
      some ⟨1, (smSearch mc 1 s alpha beta tt).1, TTFlag.UPPER, bm⟩ := by
  have h1 : smSearch mc 1 s alpha beta tt =
      smBody (smSearch mc 0) s 0 alpha beta mc tt none := by
    rw [smSearch]
    simp only [hterm, hprobe, Bool.false_eq_true, if_false]
  have hf : XScore.ble
      (smMaxGo (smSearch mc 0) (orderMovesWithPv s.board (legalMoves s) none) s
        XScore.ninf alpha beta none tt).1
      (smMaxGo (smSearch mc 0) (orderMovesWithPv s.board (legalMoves s) none) s
        XScore.ninf alpha beta none tt).2.1 = true :=
    smMaxGo_value_le_alpha _ _ _ _ _ _ _ _ (by cases alpha <;> rfl)
  refine ⟨(smMaxGo (smSearch mc 0) (orderMovesWithPv s.board (legalMoves s) none) s
      XScore.ninf alpha beta none tt).2.2.1, ?_⟩
  rw [h1]
  unfold smBody
  simp only [if_pos hmax, hf, if_true]
  exact lookupTT_insertTT _ _ _

/-- Witness for the amended C3: the concrete maximizing node `sC3`. -/
theorem smSearch_maximizing_store_upper_witness :
    ∃ bm,
      lookupTT (smSearch Color.W 1 sC3 XScore.ninf XScore.pinf []).2
          (sC3.board, sC3.toMove) =
        some ⟨1, (smSearch Color.W 1 sC3 XScore.ninf XScore.pinf []).1, TTFlag.UPPER, bm⟩ :=
  smSearch_maximizing_store_upper sC3 XScore.ninf XScore.pinf Color.W [] rfl
    (by decide) rfl

/-- Helper: while at most 6 plies have been played the rollout loop just
replays the stepping trajectory (the early-exit check never fires at
depth at most 5). -/
theorem rolloutGo_of_traj (cfg : MCfg) (stream : Nat → Nat) :
    ∀ (n : Nat) (s : GameState) (k d f : Nat) (s' : GameState) (k' : Nat),
      d + n ≤ 6 →
      trajN cfg stream n s k = some (s', k') →
      rolloutGo cfg stream (n + f) s d k = rolloutGo cfg stream f s' (d + n) k' := by
  intro n
  induction n with
  | zero =>
    intro s k d f s' k' _ ht
    simp only [trajN, Option.some.injEq, Prod.mk.injEq] at ht
    obtain ⟨hs, hk⟩ := ht
    subst hs
    subst hk
    simp
  | succ n ih =>
    intro s k d f s' k' hd ht
    by_cases hm : (legalMoves s).isEmpty
    · simp [trajN, rolloutStep, hm] at ht
    · rw [trajN] at ht
      unfold rolloutStep at ht
      rw [if_neg (by simpa using hm)] at ht
      have hcond : ¬ (5 < d ∧ mkRat 1 2 < |evalPos s|) := by
        rintro ⟨h5, -⟩
        omega
      rw [show n + 1 + f = (n + f) + 1 from by omega, rolloutGo,
        if_neg (by simpa using hm), if_neg hcond]
      have := ih (makeMoveU s (chooseRolloutMove cfg stream k s (legalMoves s)))
        (k + 1) (d + 1) f s' k' (by omega) ht
      rw [this, show d + 1 + n = d + (n + 1) from by omega]

/-- Counterexample for C5: a rollout position whose evaluation exceeds
1/2 after exactly 5 plies; the source keeps playing (the check is
`depth > 5`) and a forced capture at ply 6 changes the returned value. -/
theorem rollout_early_exit_counterexample : ¬ ClaimC5Statement := by
  intro h
  have := h cfgC5 streamC5 sC5 s5C5 5 (by decide) (by decide) (by decide) (by decide)
  exact absurd this (by decide)

/--
C5 (amended): the early-exit check of `_rollout` fires only once more
than 5 rollout plies have been played: if after 6 plies the position is
non-terminal and its normalized material evaluation (White material
balance over total non-king material, divisor floored at 20) has absolute
value above 1/2, the rollout stops there and returns that evaluation
instead of continuing to the rollout depth or a terminal state.
-/
theorem rollout_early_exit_after_six (cfg : MCfg) (stream : Nat → Nat) (s s6 : GameState)
    (k6 : Nat) (hrd : 6 < cfg.rolloutDepth)
    (ht : trajN cfg stream 6 s 0 = some (s6, k6))
    (hm : (legalMoves s6).isEmpty = false)
    (he : mkRat 1 2 < |evalPos s6|) :
    (rolloutFrom cfg stream s 0).1 = evalPos s6 := by
  unfold rolloutFrom
  rw [show cfg.rolloutDepth = 6 + (cfg.rolloutDepth - 6) from by omega,
    rolloutGo_of_traj cfg stream 6 s 0 0 (cfg.rolloutDepth - 6) s6 k6 (by omega) ht]
  obtain ⟨f', hf'⟩ : ∃ f', cfg.rolloutDepth - 6 = f' + 1 := ⟨cfg.rolloutDepth - 7, by omega⟩
  rw [hf', rolloutGo, if_neg (by simpa using hm), if_pos ⟨by omega, he⟩]

/-- Witness for the amended C5: the concrete rollout from `sC5` returns
the ply-6 evaluation 3/4. -/
theorem rollout_early_exit_after_six_witness :
    (rolloutFrom cfgC5 streamC5 sC5 0).1 = evalPos s6C5 :=
  rollout_early_exit_after_six cfgC5 streamC5 sC5 s6C5 6 (by decide) (by decide)
    (by decide) (by decide)

/-- Helper: Python's `max(x :: xs, key=...)` picks the first element whose
key is maximal — everything before it is strictly smaller, everything
after it is no larger. -/
theorem pyMaxBy_first_max {α β : Type} [LinearOrder β] (key : α → β) :
    ∀ (xs : List α) (x : α),
      ∃ l1 l2, x :: xs = l1 ++ pyMaxBy key x xs :: l2 ∧
        (∀ y ∈ l1, key y < key (pyMaxBy key x xs)) ∧
        (∀ y ∈ l2, key y ≤ key (pyMaxBy key x xs)) := by
  intro xs
  induction xs with
  | nil =>
    intro x
    exact ⟨[], [], by simp [pyMaxBy], by simp, by simp⟩
  | cons y ys ih =>
    intro x
    have hstep : pyMaxBy key x (y :: ys) = pyMaxBy key (if key x < key y then y else x) ys := by
      simp [pyMaxBy]
    by_cases hxy : key x < key y
    · obtain ⟨l1, l2, hdec, h1, h2⟩ := ih y
      rw [hstep, if_pos hxy] at *
      refine ⟨x :: l1, l2, ?_, ?_, h2⟩
      · rw [List.cons_append, ← hdec]
      · intro z hz
        rcases List.mem_cons.mp hz with hz | hz
        · subst hz
          rcases l1 with _ | ⟨a, t⟩
          · simp only [List.nil_append, List.cons.injEq] at hdec
            rw [← hdec.1]
            exact hxy
          · simp only [List.cons_append, List.cons.injEq] at hdec
            exact lt_trans (hdec.1 ▸ hxy) (h1 a (List.mem_cons_self a t))
        · exact h1 z hz
    · obtain ⟨l1, l2, hdec, h1, h2⟩ := ih x
      rw [hstep, if_neg hxy] at *
      have hyx : key y ≤ key x := le_of_not_lt hxy
      rcases l1 with _ | ⟨a, t⟩
      · simp only [List.nil_append, List.cons.injEq] at hdec
        obtain ⟨hbx, hl2⟩ := hdec
        refine ⟨[], y :: ys, by rw [List.nil_append, ← hbx], by simp, ?_⟩
        intro z hz
        rcases List.mem_cons.mp hz with hz | hz
        · subst hz
          rw [← hbx]
          exact hyx
        · exact h2 z (hl2 ▸ hz)
      · simp only [List.cons_append, List.cons.injEq] at hdec
        obtain ⟨hxa, hrest⟩ := hdec
        have hxb : key x < key (pyMaxBy key x ys) := hxa ▸ h1 a (List.mem_cons_self a t)
        refine ⟨x :: y :: t, l2, ?_, ?_, h2⟩
        · rw [List.cons_append, List.cons_append, ← hrest]
        · intro z hz
          rcases List.mem_cons.mp hz with hz | hz
          · subst hz
            exact hxb
          · rcases List.mem_cons.mp hz with hz | hz
            · subst hz
              exact lt_of_le_of_lt hyx hxb
            · exact h1 z (List.mem_cons_of_mem a hz)

/--
C7: on a state with legal moves, MCTS `choose_move` returns the single
legal move immediately when exactly one exists; otherwise, if the root
has no children it falls back to the first legal move, and else it
returns the move to the root child with the highest visit count, earliest
inserted child first on ties.
-/
theorem chooseMove_robust_child (cfg : MCfg) (stream : Nat → Nat) (s : GameState)
    (h : (legalMoves s).isEmpty = false) :
    ((legalMoves s).length = 1 →
      chooseMoveMCTS cfg stream s = some ((legalMoves s).headD defaultMove)) ∧
    (1 < (legalMoves s).length →
      ((derefNode (mctsRun cfg stream s) (stateKey s)).children = [] →
        chooseMoveMCTS cfg stream s = some ((legalMoves s).headD defaultMove)) ∧
      (∀ c cs, (derefNode (mctsRun cfg stream s) (stateKey s)).children = c :: cs →
        ∃ best l1 l2,
          c :: cs = l1 ++ best :: l2 ∧
          chooseMoveMCTS cfg stream s = some best.1 ∧
          (∀ y ∈ l1, (derefNode (mctsRun cfg stream s) y.2).visits <
            (derefNode (mctsRun cfg stream s) best.2).visits) ∧
          (∀ y ∈ l2, (derefNode (mctsRun cfg stream s) y.2).visits ≤
            (derefNode (mctsRun cfg stream s) best.2).visits))) := by
  unfold chooseMoveMCTS
  simp only [h, Bool.false_eq_true, if_false]
  constructor
  · intro h1
    rw [if_pos h1]
  · intro h2
    rw [if_neg (by omega)]
    constructor
    · intro hc
      simp only [hc]
    · intro c cs hc
      simp only [hc]
      obtain ⟨l1, l2, hdec, hl1, hl2⟩ := pyMaxBy_first_max
        (fun mc : Move × NodeKey => (derefNode (mctsRun cfg stream s) mc.2).visits) cs c
      exact ⟨pyMaxBy _ c cs, l1, l2, hdec, rfl, hl1, hl2⟩

/-- Witness for C7: with zero simulations the root keeps no children and
the concrete fallback move is returned. -/
theorem chooseMove_robust_child_witness :
    chooseMoveMCTS cfgC7w streamC5 initialState =
      some ((legalMoves initialState).headD defaultMove) :=
  ((chooseMove_robust_child cfgC7w streamC5 initialState (by decide)).2 (by decide)).1
    (by decide)

/--
C8: with no time limit, `choose_move` is a function of the configuration
and of the seed-determined stream of random draws alone: two runs whose
streams agree everywhere (as the private `random.Random(seed)` sources of
two agents constructed with the same seed do) return the same move, and
do return one.
-/
theorem chooseMove_seed_deterministic (cfg : MCfg) (r1 r2 : Nat → Nat) (s : GameState)
    (h : (legalMoves s).isEmpty = false) (hr : ∀ k, r1 k = r2 k) :
    chooseMoveMCTS cfg r1 s = chooseMoveMCTS cfg r2 s ∧
      (chooseMoveMCTS cfg r1 s).isSome = true := by
  have heq : r1 = r2 := funext hr
  subst heq
  refine ⟨rfl, ?_⟩
  unfold chooseMoveMCTS
  simp only [h, Bool.false_eq_true, if_false]
  split
  · rfl
  · split <;> rfl

/-- Witness for C8: two equal streams on the initial position. -/
theorem chooseMove_seed_deterministic_witness :
    chooseMoveMCTS cfgC7w streamC5 initialState = chooseMoveMCTS cfgC7w streamC5 initialState ∧
      (chooseMoveMCTS cfgC7w streamC5 initialState).isSome = true :=
  chooseMove_seed_deterministic cfgC7w streamC5 streamC5 initialState (by decide)
    (fun _ => rfl)

end MiniChess
